import Mathlib

/-!
Verification of the job-application tracker (src/app.py) against its
natural-language specification.

The development shallowly embeds the core logic of app.py:
  * password hashing and the login / register handlers (login_page),
  * the per-user durable record store (get_user_data_file, load_data, save_data),
  * the search / status filter and the summary counters (main_app),
  * the session state machine (streamlit session_state driven by the handlers).

External libraries used by the source are modelled by their documented
semantics: json files become a map from file name to stored rows, the
pandas date round trip becomes an explicit ISO-8601 calendar-date
serializer and parser, hashlib.sha256 becomes an abstract digest
parameter, and pandas Series.str.contains becomes a model of re.search
for the regex fragment actually reachable in the claims (literal
characters and the wildcard dot).
-/

/-- Calendar date with no time component, the value produced by
pandas to_datetime(...).dt.date and by st.date_input in app.py. -/
structure CalDate where
  year : Nat
  month : Nat
  day : Nat
deriving DecidableEq

/-- Range check for dates as they can actually occur in the program:
python datetime.date guarantees year 1..9999, month 1..12, day 1..31. -/
def validDate (d : CalDate) : Bool :=
  1 ≤ d.year && d.year ≤ 9999 && 1 ≤ d.month && d.month ≤ 12 &&
    1 ≤ d.day && d.day ≤ 31

/-- Decimal digit to its character. -/
def digitToChar (n : Nat) : Char :=
  Char.ofNat (48 + n)

/-- Character to decimal digit, if it is one. -/
def charToDigit (c : Char) : Option Nat :=
  if '0' ≤ c ∧ c ≤ '9' then some (c.toNat - 48) else none

/-- ISO serialization of a date, as performed by astype(str) on a
pandas date column in save_data (python str(date) is %04d-%02d-%02d). -/
def dateToISO (d : CalDate) : String :=
  String.mk
    [ digitToChar (d.year / 1000), digitToChar (d.year / 100 % 10),
      digitToChar (d.year / 10 % 10), digitToChar (d.year % 10), '-',
      digitToChar (d.month / 10), digitToChar (d.month % 10), '-',
      digitToChar (d.day / 10), digitToChar (d.day % 10) ]

/-- Parsing of a stored ISO date back to a calendar date, as performed by
pd.to_datetime(...).dt.date in load_data; a string that does not denote a
date is the fatal CorruptStore condition, returned here as none. -/
def parseISO (s : String) : Option CalDate :=
  match s.data with
  | [y1, y2, y3, y4, s1, m1, m2, s2, d1, d2] =>
    if s1 = '-' ∧ s2 = '-' then
      match charToDigit y1, charToDigit y2, charToDigit y3, charToDigit y4,
          charToDigit m1, charToDigit m2, charToDigit d1, charToDigit d2 with
      | some a, some b, some c, some e, some f, some g, some h, some i =>
        if validDate ⟨((a * 10 + b) * 10 + c) * 10 + e, f * 10 + g, h * 10 + i⟩ then
          some ⟨((a * 10 + b) * 10 + c) * 10 + e, f * 10 + g, h * 10 + i⟩
        else none
      | _, _, _, _, _, _, _, _ => none
    else none
  | _ => none

/-- In-memory application record: one row of the session dataframe
jobs_df in main_app (columns Company Name, Job Title, Status,
Applied Date, Package), with Applied Date held as a calendar date. -/
structure Job where
  company_name : String
  job_title : String
  status : String
  applied_date : CalDate
  package : String
deriving DecidableEq

/-- Durable application record: one object of the json list written by
save_data, where Applied Date has been serialized to a string. -/
structure StoredRow where
  company_name : String
  job_title : String
  status : String
  applied_date : String
  package : String
deriving DecidableEq

/-- Row serialization performed by save_data (astype(str) on the
Applied Date column, then to_dict(orient="records")). -/
def serializeRow (j : Job) : StoredRow :=
  ⟨j.company_name, j.job_title, j.status, dateToISO j.applied_date, j.package⟩

/-- Row parsing performed by load_data (pd.to_datetime on the
Applied Date column); none is the fatal CorruptStore condition. -/
def parseRow (r : StoredRow) : Option Job :=
  (parseISO r.applied_date).map
    (fun d => ⟨r.company_name, r.job_title, r.status, d, r.package⟩)

/-- Column-wise date parsing of a whole stored list; any bad date makes
the whole load fail (pd.to_datetime raises on the full column). -/
def parseRows : List StoredRow → Option (List Job)
  | [] => some []
  | r :: rs =>
    match parseRow r, parseRows rs with
    | some j, some js => some (j :: js)
    | _, _ => none

/-- The data directory, modelled as a map from file name to the json
list stored in that file; a name mapped to none is an absent file. -/
def Store : Type := String → Option (List StoredRow)

/-- get_user_data_file in app.py: DATA_DIR / f"jobs_{username}.json".
The constant directory is dropped; the file name keeps the full
username-determined shape. -/
def get_user_data_file (username : String) : String :=
  "jobs_" ++ username ++ ".json"

/-- load_data in app.py: returns the parsed stored list when the file
for that username exists and holds a non-empty list, the empty
collection otherwise; none models the fatal parse failure. -/
def load_data (store : Store) (username : String) : Option (List Job) :=
  match store (get_user_data_file username) with
  | none => some []
  | some rows => if rows.isEmpty then some [] else parseRows rows

/-- save_data in app.py: serializes every row and fully overwrites the
file for that username. -/
def save_data (store : Store) (username : String) (df : List Job) : Store :=
  fun k => if k = get_user_data_file username then some (df.map serializeRow) else store k

/-- One value of the users.json mapping: the credential record written
by the register handler. display_name is optional because the login
handler reads it with .get("display_name", username), tolerating a
stored record without that field. -/
structure Cred where
  password : String
  display_name : Option String
  created_at : String
deriving DecidableEq

/-- The durable credential mapping held in users.json (load_users /
save_users): username to credential record. -/
def Users : Type := String → Option Cred

/-- The authenticated identity the login handler places in the session
(st.session_state.username and st.session_state.display_name). -/
structure Identity where
  username : String
  display_name : String
deriving DecidableEq

/-- Outcome of the login form submission in login_page. The two error
constructors correspond to the two distinct error messages of the
handler: invalidCredentials is "Invalid username or password" and
missingInput is "Please enter both username and password". -/
inductive AuthResult where
  | success (id : Identity)
  | invalidCredentials
  | missingInput
deriving DecidableEq

/-- True exactly on the success outcome. -/
def authIsSuccess : AuthResult → Bool
  | .success _ => true
  | _ => false

/-- The login handler of login_page (lines 144 to 156 of app.py).
hashlib.sha256 from hash_password is an external library, taken here as
the abstract digest parameter hash; python truthiness of the two input
strings is non-emptiness. -/
def authenticate (hash : String → String) (users : Users) (u p : String) : AuthResult :=
  if u ≠ "" ∧ p ≠ "" then
    match users u with
    | some c => if c.password = hash p then
        .success ⟨u, c.display_name.getD u⟩
      else .invalidCredentials
    | none => .invalidCredentials
  else .missingInput

/-- Outcome of the register form submission in login_page, one
constructor per distinct error message of the handler. -/
inductive RegResult where
  | ok
  | duplicateUsername
  | weakPassword
  | incompleteInput
  | passwordMismatch
deriving DecidableEq

/-- The register handler of login_page (lines 167 to 186 of app.py):
returns the outcome together with the resulting durable credential
mapping. now stands for datetime.now().isoformat(). -/
def register (hash : String → String) (now : String) (users : Users)
    (u d p confirm : String) : RegResult × Users :=
  if u ≠ "" ∧ p ≠ "" ∧ d ≠ "" then
    if p ≠ confirm then (.passwordMismatch, users)
    else if p.length < 4 then (.weakPassword, users)
    else
      match users u with
      | some _ => (.duplicateUsername, users)
      | none => (.ok, fun k => if k = u then some ⟨hash p, some d, now⟩ else users k)
  else (.incompleteInput, users)

/-- Atom of the modelled regex fragment: a literal character or the
wildcard dot. -/
inductive RAtom where
  | lit (c : Char)
  | anyChar
deriving DecidableEq

/-- The python re metacharacters; a pattern containing one of these
(other than the modelled dot) is outside the modelled fragment. -/
def metaChars : List Char :=
  [ '.', '^', '$', '*', '+', '?', '{', '}', '[', ']', '\\', '|', '(', ')' ]

/-- Compile a pattern string to atoms; none when the pattern uses regex
syntax beyond the modelled fragment. -/
def patAtoms : List Char → Option (List RAtom)
  | [] => some []
  | c :: cs =>
    if c = '.' then (patAtoms cs).map (fun as => RAtom.anyChar :: as)
    else if c ∈ metaChars then none
    else (patAtoms cs).map (fun as => RAtom.lit c :: as)

/-- Character key used for comparison: lowercased when case is ignored
(re.IGNORECASE, from case=False in pandas str.contains). -/
def keyChar (ic : Bool) (c : Char) : Char :=
  if ic then c.toLower else c

/-- Does one atom match one character. -/
def atomMatches (ic : Bool) : RAtom → Char → Bool
  | .anyChar, _ => true
  | .lit c, d => keyChar ic c == keyChar ic d

/-- Does the atom list match a prefix of the text. -/
def matchHere (ic : Bool) : List RAtom → List Char → Bool
  | [], _ => true
  | _ :: _, [] => false
  | a :: as, c :: cs => atomMatches ic a c && matchHere ic as cs

/-- re.search: does the atom list match at some position of the text. -/
def searchFrom (ic : Bool) (atoms : List RAtom) : List Char → Bool
  | [] => matchHere ic atoms []
  | c :: cs => matchHere ic atoms (c :: cs) || searchFrom ic atoms cs

/-- pandas Series.str.contains applied to one cell: the pattern is
compiled as a regular expression (regex=True is the pandas default) and
searched anywhere in the cell; none when the pattern is outside the
modelled regex fragment. -/
def str_contains (ic : Bool) (s pat : String) : Option Bool :=
  (patAtoms pat.data).map (fun atoms => searchFrom ic atoms s.data)

/-- Plain substring test on char lists (needle occurs contiguously in
the haystack), the notion the specification describes. -/
def startsWithList : List Char → List Char → Bool
  | [], _ => true
  | x :: xs, y :: ys => x == y && startsWithList xs ys
  | _ :: _, [] => false

/-- Substring occurrence anywhere in the haystack. -/
def hasSubList (needle : List Char) : List Char → Bool
  | [] => startsWithList needle []
  | c :: cs => startsWithList needle (c :: cs) || hasSubList needle cs

/-- Case-sensitive substring containment of strings. -/
def containsSub (hay needle : String) : Bool :=
  hasSubList needle.data hay.data

/-- Case-insensitive substring containment of strings. -/
def containsSubCI (hay needle : String) : Bool :=
  hasSubList (needle.data.map Char.toLower) (hay.data.map Char.toLower)

/-- A pattern made only of literal characters (no regex syntax). -/
def litPat (s : String) : Bool :=
  s.data.all (fun c => c ∉ metaChars)

/-- The filter block of main_app (lines 270 to 281 of app.py): on a copy
of the snapshot, when search_query is truthy (non-empty) keep rows whose
Company Name or Job Title matches the query via str.contains with
case=False; then, when status_filter is not the "All" sentinel, keep
rows whose Status equals it exactly. none models the exception raised
when the query is an invalid or unmodelled regex pattern. -/
def filterRecords (rows : List Job) (search_query status_filter : String) :
    Option (List Job) :=
  Option.map
    (fun rs =>
      if status_filter = "All" then rs
      else rs.filter (fun r => r.status == status_filter))
    (if search_query = "" then some rows
     else
       Option.map
         (fun atoms => rows.filter (fun r =>
           searchFrom true atoms r.company_name.data
             || searchFrom true atoms r.job_title.data))
         (patAtoms search_query.data))

/-- The four summary counters displayed by main_app. -/
structure Stats where
  total : Nat
  interviews : Nat
  offers : Nat
  pending : Nat
deriving DecidableEq

/-- The statistics block of main_app (lines 288 to 299 of app.py),
always computed over st.session_state.jobs_df, the unfiltered snapshot.
The Interviews counter uses str.contains("Interview") on the Status
column (case-sensitive, and a literal pattern, so the regex detour of
str.contains cannot fail here). -/
def aggregate (rows : List Job) : Stats where
  total := rows.length
  interviews := (rows.filter (fun r => str_contains false r.status "Interview" == some true)).length
  offers := (rows.filter (fun r => r.status == "Offer Received")).length
  pending := (rows.filter (fun r => r.status == "Applied")).length

/-- What the main page derives from the snapshot: the filtered list
shown in the table and the summary counters. -/
structure MainView where
  listed : List Job
  stats : Stats
deriving DecidableEq

/-- The main content area of main_app: the filtered record list plus the
counters; none when the filter block raises (invalid regex), in which
case nothing below it is displayed. -/
def renderMainView (snapshot : List Job) (search_query status_filter : String) :
    Option MainView :=
  (filterRecords snapshot search_query status_filter).map
    (fun listed => ⟨listed, aggregate snapshot⟩)

/-- The closed status vocabulary STATUS_OPTIONS of app.py. -/
def STATUS_OPTIONS : List String :=
  [ "Applied", "Interview Scheduled", "Interview Done", "Offer Received",
    "Rejected", "Withdrawn" ]

/-- Membership in the closed status vocabulary. -/
def statusOk (s : String) : Bool :=
  STATUS_OPTIONS.contains s

/-- The streamlit session (st.session_state of app.py) together with the
durable stores it interacts with. current_user is the key set at line
212 and never removed; jobs_df is popped on logout. -/
structure SessionState where
  logged_in : Bool
  username : Option String
  display_name : Option String
  current_user : Option String
  jobs_df : Option (List Job)
  show_confirm : Bool
  store : Store
  users : Users

/-- One user interaction. login and logout are the two auth buttons;
render is a plain rerun of the main page; the rest are the main page
mutation buttons, with the payload a widget supplies. -/
inductive Event where
  | login (u p : String)
  | logout
  | render
  | addJob (r : Job)
  | refresh
  | saveChanges (rows : List Job)
  | clearRequest
  | clearConfirm
  | clearCancel

/-- The snapshot initialization of main_app (lines 210 to 212 of
app.py): reload when jobs_df is absent or current_user differs from the
logged-in username. A load failure raises before either key is
assigned, leaving the session unchanged (and the page body unrendered). -/
def renderInit (s : SessionState) : SessionState :=
  match s.username with
  | none => s
  | some u =>
    if s.jobs_df = none ∨ s.current_user ≠ some u then
      match load_data s.store u with
      | some df => { s with jobs_df := some df, current_user := some u }
      | none => s
    else s

/-- The page body below the snapshot initialization (sidebar form,
refresh, table, Save Changes, Clear All) is reached only when lines 210
to 212 completed without raising: then jobs_df is present and
current_user equals the logged-in username. -/
def renderedOk (s : SessionState) : Bool :=
  s.jobs_df.isSome && s.current_user == s.username

/-- Set the snapshot and persist it for user u (the common tail of the
add, save-changes and clear handlers). -/
def persistDf (s : SessionState) (u : String) (df : List Job) : SessionState :=
  { s with jobs_df := some df, store := save_data s.store u df }

/-- The Add Application form handler (lines 227 to 239 of app.py):
requires truthy company name and job title, appends the new row to the
snapshot and persists it. -/
def addJobHandler (r : Job) (t : SessionState) : SessionState :=
  if renderedOk t then
    match t.username, t.jobs_df with
    | some u, some df =>
      if r.company_name ≠ "" ∧ r.job_title ≠ "" then persistDf t u (df ++ [r]) else t
    | _, _ => t
  else t

/-- The Refresh Data button handler (lines 266 to 268 of app.py):
discards the snapshot and reloads it from the store. -/
def refreshHandler (t : SessionState) : SessionState :=
  if renderedOk t then
    match t.username with
    | some u =>
      match load_data t.store u with
      | some df => { t with jobs_df := some df }
      | none => t
    | none => t
  else t

/-- The Save Changes button handler (lines 352 to 356 of app.py):
replaces the snapshot with the edited rows and persists them. -/
def saveChangesHandler (rows : List Job) (t : SessionState) : SessionState :=
  if renderedOk t then
    match t.username with
    | some u => persistDf t u rows
    | none => t
  else t

/-- The Clear All button handler (lines 359 to 360 of app.py): only
raises the confirmation flag. -/
def clearRequestHandler (t : SessionState) : SessionState :=
  if renderedOk t then { t with show_confirm := true } else t

/-- The Yes, Delete All button handler (lines 363 to 371 of app.py):
effective only while the confirmation flag is raised; replaces the
snapshot by the empty sequence, persists it and lowers the flag. -/
def clearConfirmHandler (t : SessionState) : SessionState :=
  if renderedOk t then
    if t.show_confirm then
      match t.username with
      | some u => { persistDf t u [] with show_confirm := false }
      | none => t
    else t
  else t

/-- The Cancel button handler (lines 372 to 375 of app.py): lowers the
confirmation flag, touching nothing else. -/
def clearCancelHandler (t : SessionState) : SessionState :=
  if renderedOk t then
    if t.show_confirm then { t with show_confirm := false } else t
  else t

/-- One step of the session machine, following the streamlit execution
model: a main-page interaction reruns the script, so the snapshot
initialization runs first and the handler only fires if the page body
rendered. The logout button sits above the initialization (line 200)
and its handler reruns immediately, so it acts on the raw state. -/
def step (hash : String → String) (s : SessionState) (e : Event) : SessionState :=
  match e with
  | .login u p =>
    if s.logged_in then s
    else
      match authenticate hash s.users u p with
      | .success id =>
        { s with logged_in := true, username := some id.username,
                 display_name := some id.display_name }
      | _ => s
  | .logout =>
    if s.logged_in then
      { s with logged_in := false, username := none, display_name := none,
               jobs_df := none }
    else s
  | .render => if s.logged_in then renderInit s else s
  | .addJob r => if s.logged_in then addJobHandler r (renderInit s) else s
  | .refresh => if s.logged_in then refreshHandler (renderInit s) else s
  | .saveChanges rows => if s.logged_in then saveChangesHandler rows (renderInit s) else s
  | .clearRequest => if s.logged_in then clearRequestHandler (renderInit s) else s
  | .clearConfirm => if s.logged_in then clearConfirmHandler (renderInit s) else s
  | .clearCancel => if s.logged_in then clearCancelHandler (renderInit s) else s

/-- Payload well-formedness guaranteed by the input widgets: dates come
from st.date_input or the configured DateColumn, hence are real
calendar dates; edited statuses come from the configured
SelectboxColumn, hence lie in the vocabulary. -/
def eventOk : Event → Bool
  | .addJob r => validDate r.applied_date
  | .saveChanges rows =>
    rows.all (fun r => validDate r.applied_date && statusOk r.status)
  | _ => true

/-- Run a sequence of interactions. -/
def run (hash : String → String) (s : SessionState) (evs : List Event) : SessionState :=
  evs.foldl (step hash) s

/-- The session as it starts in a fresh process: anonymous, no snapshot,
no pending confirmation. -/
def initState (users : Users) (store : Store) : SessionState :=
  ⟨false, none, none, none, none, false, store, users⟩

/-- Session invariant: an anonymous session holds no snapshot; a
logged-in session knows its username; and whenever a snapshot is
present, it belongs to the currently authenticated username, whose key
current_user marks it and whose stored collection agrees with it. -/
def Synced (s : SessionState) : Prop :=
  (s.logged_in = false → s.jobs_df = none) ∧
  (s.logged_in = true → ∃ u, s.username = some u) ∧
  (∀ df, s.jobs_df = some df →
    s.logged_in = true ∧
      ∃ u, s.username = some u ∧ s.current_user = some u ∧
        load_data s.store u = some df)

/-- A Session Context mutation of the record collection, as the
specification groups them: add (the sidebar form), applyEdits (Save
Changes) and clearAll (the confirmed clear). Each one persists the full
snapshot immediately. -/
inductive Mut where
  | add (r : Job)
  | applyEdits (rows : List Job)
  | clearAll

/-- Apply one mutation to the pair of in-memory snapshot and durable
store, as the corresponding handler of main_app does: add appends when
company name and job title are truthy (and is rejected without any
state change otherwise), applyEdits replaces the snapshot with the
edited rows, clearAll replaces it with the empty sequence; every
accepted mutation saves the full snapshot. -/
def applyMut (u : String) (p : List Job × Store) (m : Mut) : List Job × Store :=
  match m with
  | .add r =>
    if r.company_name ≠ "" ∧ r.job_title ≠ "" then
      (p.1 ++ [r], save_data p.2 u (p.1 ++ [r]))
    else p
  | .applyEdits rows => (rows, save_data p.2 u rows)
  | .clearAll => ([], save_data p.2 u [])

/-- Apply a finite sequence of mutations in order. -/
def applyMuts (u : String) (p : List Job × Store) (ms : List Mut) : List Job × Store :=
  ms.foldl (applyMut u) p

/-- Widget guarantee on a mutation payload: dates entered through
st.date_input or the DateColumn are real calendar dates. -/
def mutOk : Mut → Bool
  | .add r => validDate r.applied_date
  | .applyEdits rows => rows.all (fun r => validDate r.applied_date)
  | .clearAll => true

/-- Concrete digest used to evaluate the model on concrete inputs: an
injective stand-in for the sha256 hex digest. -/
def hash0 : String → String := fun s => "h:" ++ s

/-- A credential record stored under the empty username (users.json is
plain json, so such a record can be present). -/
def cred0 : Cred := ⟨hash0 "pw", some "Someone", "2024-01-01T00:00:00"⟩

/-- Credential mapping holding only the empty username. -/
def users0 : Users := fun k => if k = "" then some cred0 else none

/-- Credential mapping holding the user alice. -/
def users1 : Users := fun k =>
  if k = "alice" then some ⟨hash0 "pw", some "Alice", "t0"⟩ else none

/-- A credential record without the display_name field. -/
def cred2 : Cred := ⟨hash0 "pw", none, "t0"⟩

/-- Credential mapping holding the user bob, whose stored record has no
display_name field. -/
def users2 : Users := fun k => if k = "bob" then some cred2 else none

/-- A credential record for bob with an ordinary password digest. -/
def credB : Cred := ⟨hash0 "Secret99", some "Bob", "t0"⟩

/-- Credential mapping holding bob, used to probe re-registration. -/
def usersB : Users := fun k => if k = "bob" then some credB else none

/-- The data directory with no files at all. -/
def emptyStore : Store := fun _ => none

/-- A concrete well-formed application record. -/
def jobA : Job := ⟨"Acme", "Engineer", "Applied", ⟨2024, 1, 10⟩, ""⟩

/-- A record whose status lies outside the closed vocabulary. -/
def jobBad : Job := ⟨"Acme", "Engineer", "On Hold", ⟨2024, 1, 10⟩, ""⟩

/-- A concrete rendered session for alice: logged in, snapshot loaded,
current_user marking it, no pending confirmation. -/
def s0 : SessionState :=
  ⟨true, some "alice", some "Alice", some "alice", some [jobA], false,
    emptyStore, users1⟩

theorem charToDigit_digitToChar (k : Nat) (hk : k < 10) :
    charToDigit (digitToChar k) = some k := by
  interval_cases k <;> decide

theorem parseISO_dateToISO (d : CalDate) (h : validDate d = true) :
    parseISO (dateToISO d) = some d := by
  obtain ⟨Y, M, D⟩ := d
  simp only [validDate, Bool.and_eq_true, decide_eq_true_eq] at h
  obtain ⟨⟨⟨⟨⟨h1, h2⟩, h3⟩, h4⟩, h5⟩, h6⟩ := h
  unfold dateToISO parseISO
  simp only [String.data]
  rw [charToDigit_digitToChar _ (by omega), charToDigit_digitToChar _ (by omega),
    charToDigit_digitToChar _ (by omega), charToDigit_digitToChar _ (by omega),
    charToDigit_digitToChar _ (by omega), charToDigit_digitToChar _ (by omega),
    charToDigit_digitToChar _ (by omega), charToDigit_digitToChar _ (by omega)]
  have hy : ((Y / 1000 * 10 + Y / 100 % 10) * 10 + Y / 10 % 10) * 10 + Y % 10 = Y := by
    omega
  have hm : M / 10 * 10 + M % 10 = M := by omega
  have hd : D / 10 * 10 + D % 10 = D := by omega
  have hv : validDate ⟨Y, M, D⟩ = true := by
    simp only [validDate, Bool.and_eq_true, decide_eq_true_eq]
    omega
  simp [hy, hm, hd, hv]

theorem parseISO_valid (s : String) (d : CalDate) (h : parseISO s = some d) :
    validDate d = true := by
  unfold parseISO at h
  repeat' split at h
  all_goals first
    | exact Option.noConfusion h
    | (injection h with h2; subst h2; assumption)

theorem parseRow_serializeRow (j : Job) (h : validDate j.applied_date = true) :
    parseRow (serializeRow j) = some j := by
  obtain ⟨c, t, st, d, p⟩ := j
  simp only [parseRow, serializeRow, parseISO_dateToISO _ h, Option.map_some']

theorem parseRows_map_serializeRow (df : List Job)
    (h : ∀ j ∈ df, validDate j.applied_date = true) :
    parseRows (df.map serializeRow) = some df := by
  induction df with
  | nil => rfl
  | cons j js ih =>
    simp only [List.map_cons, parseRows,
      parseRow_serializeRow j (h j (List.mem_cons_self j js)),
      ih (fun x hx => h x (List.mem_cons_of_mem j hx))]

/-- Round trip of the per-user record store: loading right after saving
returns exactly the saved ordered sequence, date values included. -/
theorem load_data_save_data (store : Store) (u : String) (df : List Job)
    (h : ∀ j ∈ df, validDate j.applied_date = true) :
    load_data (save_data store u df) u = some df := by
  unfold load_data save_data
  simp only [if_pos rfl]
  cases df with
  | nil => rfl
  | cons j js =>
    simp only [List.map_cons, List.isEmpty_cons, Bool.false_eq_true, if_false]
    exact parseRows_map_serializeRow _ h

theorem parseRows_valid (rows : List StoredRow) (df : List Job)
    (h : parseRows rows = some df) :
    ∀ j ∈ df, validDate j.applied_date = true := by
  induction rows generalizing df with
  | nil =>
    simp only [parseRows, Option.some.injEq] at h
    subst h
    intro j hj
    exact absurd hj (List.not_mem_nil j)
  | cons r rs ih =>
    simp only [parseRows] at h
    cases hr : parseRow r with
    | none => rw [hr] at h; exact Option.noConfusion h
    | some j0 =>
      rw [hr] at h
      cases hrs : parseRows rs with
      | none => rw [hrs] at h; exact Option.noConfusion h
      | some js0 =>
        rw [hrs] at h
        injection h with h2
        subst h2
        intro j hj
        rcases List.mem_cons.mp hj with hj | hj
        · subst hj
          unfold parseRow at hr
          cases hp : parseISO r.applied_date with
          | none => rw [hp] at hr; exact Option.noConfusion hr
          | some d =>
            rw [hp, Option.map_some'] at hr
            injection hr with hr2
            subst hr2
            exact parseISO_valid _ _ hp
        · exact ih js0 hrs j hj

/-- Every collection that load_data can return has in-range dates. -/
theorem load_data_valid (store : Store) (u : String) (df : List Job)
    (h : load_data store u = some df) :
    ∀ j ∈ df, validDate j.applied_date = true := by
  unfold load_data at h
  repeat' split at h
  all_goals first
    | (injection h with h2; subst h2; intro j hj; exact absurd hj (List.not_mem_nil j))
    | exact parseRows_valid _ df h

/-- Two distinct usernames always name distinct data files. -/
theorem get_user_data_file_inj (u1 u2 : String)
    (h : get_user_data_file u1 = get_user_data_file u2) : u1 = u2 := by
  unfold get_user_data_file at h
  have hd := congrArg String.data h
  simp only [String.data_append, List.append_right_inj, List.append_left_inj] at hd
  exact String.ext hd

/-- Saving for one username leaves every other username unchanged
on disk. -/
theorem load_data_save_data_other (store : Store) (u1 u2 : String)
    (h : u1 ≠ u2) (df : List Job) :
    load_data (save_data store u1 df) u2 = load_data store u2 := by
  unfold load_data save_data
  rw [if_neg (fun he => h (get_user_data_file_inj u1 u2 he.symm))]

theorem patAtoms_of_lit (l : List Char) (h : l.all (fun c => c ∉ metaChars) = true) :
    patAtoms l = some (l.map RAtom.lit) := by
  induction l with
  | nil => rfl
  | cons c cs ih =>
    simp only [List.all_cons, Bool.and_eq_true, decide_eq_true_eq] at h
    have hdot : ¬c = '.' := fun he => h.1 (he ▸ List.mem_cons_self '.' _)
    simp only [patAtoms, if_neg hdot, if_neg h.1, ih h.2, Option.map_some',
      List.map_cons]

theorem matchHere_lit (ic : Bool) (l t : List Char) :
    matchHere ic (l.map RAtom.lit) t
      = startsWithList (l.map (keyChar ic)) (t.map (keyChar ic)) := by
  induction l generalizing t with
  | nil => cases t <;> rfl
  | cons c cs ih =>
    cases t with
    | nil => rfl
    | cons d ds =>
      simp only [List.map_cons, matchHere, startsWithList, atomMatches, ih]

theorem searchFrom_lit (ic : Bool) (l t : List Char) :
    searchFrom ic (l.map RAtom.lit) t
      = hasSubList (l.map (keyChar ic)) (t.map (keyChar ic)) := by
  induction t with
  | nil => simp only [searchFrom, hasSubList, List.map_nil, matchHere_lit]
  | cons d ds ih =>
    simp only [searchFrom, hasSubList, List.map_cons, ih, matchHere_lit ic l (d :: ds),
      List.map_cons]

theorem keyChar_true_fun : keyChar true = Char.toLower := funext fun _ => rfl

theorem keyChar_false_fun : keyChar false = id := funext fun _ => rfl

/-- For a pattern without regex metacharacters, pandas str.contains with
case=False is exactly case-insensitive substring containment. -/
theorem str_contains_lit_ci (s pat : String) (h : litPat pat = true) :
    str_contains true s pat = some (containsSubCI s pat) := by
  unfold str_contains containsSubCI
  rw [patAtoms_of_lit _ h, Option.map_some', searchFrom_lit, keyChar_true_fun]

/-- For a pattern without regex metacharacters, pandas str.contains with
the default case handling is exactly substring containment. -/
theorem str_contains_lit_cs (s pat : String) (h : litPat pat = true) :
    str_contains false s pat = some (containsSub s pat) := by
  unfold str_contains containsSub
  rw [patAtoms_of_lit _ h, Option.map_some', searchFrom_lit, keyChar_false_fun,
    List.map_id, List.map_id]

theorem renderInit_fields (s : SessionState) :
    (renderInit s).logged_in = s.logged_in ∧ (renderInit s).username = s.username ∧
      (renderInit s).store = s.store ∧ (renderInit s).users = s.users ∧
      (renderInit s).show_confirm = s.show_confirm := by
  unfold renderInit
  repeat' split
  all_goals exact ⟨rfl, rfl, rfl, rfl, rfl⟩

theorem synced_renderInit (s : SessionState) (h : Synced s)
    (hlog : s.logged_in = true) : Synced (renderInit s) := by
  obtain ⟨h1, h2, h3⟩ := h
  unfold renderInit
  split
  · exact ⟨h1, h2, h3⟩
  · rename_i u hu
    split
    · split
      · rename_i df hl
        refine ⟨?_, ?_, ?_⟩
        · intro hf
          exact absurd (hlog.symm.trans hf) (fun hx => Bool.noConfusion hx)
        · intro _
          exact ⟨u, hu⟩
        · intro df0 hdf0
          obtain rfl : df = df0 := Option.some.inj hdf0
          exact ⟨hlog, u, hu, rfl, hl⟩
      · exact ⟨h1, h2, h3⟩
    · exact ⟨h1, h2, h3⟩

theorem renderedOk_current (t : SessionState) (h : renderedOk t = true) :
    t.current_user = t.username := by
  unfold renderedOk at h
  simp only [Bool.and_eq_true, beq_iff_eq] at h
  exact h.2

theorem synced_persistDf (t : SessionState) (u : String) (df : List Job)
    (hlog : t.logged_in = true) (hu : t.username = some u)
    (hcur : t.current_user = some u)
    (hval : ∀ j ∈ df, validDate j.applied_date = true) :
    Synced (persistDf t u df) := by
  refine ⟨?_, ?_, ?_⟩
  · intro hf
    exact absurd (hlog.symm.trans hf) (fun hx => Bool.noConfusion hx)
  · intro _
    exact ⟨u, hu⟩
  · intro df0 hdf0
    obtain rfl : df = df0 := Option.some.inj hdf0
    exact ⟨hlog, u, hu, hcur, load_data_save_data t.store u df hval⟩

theorem synced_addJobHandler (r : Job) (t : SessionState) (h : Synced t)
    (hlog : t.logged_in = true) (hr : validDate r.applied_date = true) :
    Synced (addJobHandler r t) := by
  unfold addJobHandler
  split
  · rename_i hro
    split
    · rename_i u df hu hdf
      split
      · obtain ⟨_, _, h3⟩ := h
        obtain ⟨_, u2, hu2, _, hload⟩ := h3 df hdf
        rw [hu] at hu2
        obtain rfl : u = u2 := Option.some.inj hu2
        refine synced_persistDf t u (df ++ [r]) hlog hu
          ((renderedOk_current t hro).trans hu) ?_
        intro j hj
        rcases List.mem_append.mp hj with hj | hj
        · exact load_data_valid t.store u df hload j hj
        · rw [List.mem_singleton.mp hj]
          exact hr
      · exact h
    · exact h
  · exact h

theorem synced_refreshHandler (t : SessionState) (h : Synced t)
    (hlog : t.logged_in = true) : Synced (refreshHandler t) := by
  unfold refreshHandler
  split
  · rename_i hro
    split
    · rename_i u hu
      split
      · rename_i df hl
        refine ⟨?_, ?_, ?_⟩
        · intro hf
          exact absurd (hlog.symm.trans hf) (fun hx => Bool.noConfusion hx)
        · intro _
          exact ⟨u, hu⟩
        · intro df0 hdf0
          obtain rfl : df = df0 := Option.some.inj hdf0
          exact ⟨hlog, u, hu, (renderedOk_current t hro).trans hu, hl⟩
      · exact h
    · exact h
  · exact h

theorem synced_saveChangesHandler (rows : List Job) (t : SessionState) (h : Synced t)
    (hlog : t.logged_in = true)
    (hval : ∀ j ∈ rows, validDate j.applied_date = true) :
    Synced (saveChangesHandler rows t) := by
  unfold saveChangesHandler
  split
  · rename_i hro
    split
    · rename_i u hu
      exact synced_persistDf t u rows hlog hu
        ((renderedOk_current t hro).trans hu) hval
    · exact h
  · exact h

theorem synced_clearRequestHandler (t : SessionState) (h : Synced t) :
    Synced (clearRequestHandler t) := by
  unfold clearRequestHandler
  split
  · exact h
  · exact h

theorem synced_clearConfirmHandler (t : SessionState) (h : Synced t)
    (hlog : t.logged_in = true) : Synced (clearConfirmHandler t) := by
  unfold clearConfirmHandler
  split
  · rename_i hro
    split
    · split
      · rename_i u hu
        exact synced_persistDf t u [] hlog hu
          ((renderedOk_current t hro).trans hu)
          (fun j hj => absurd hj (List.not_mem_nil j))
      · exact h
    · exact h
  · exact h

theorem synced_clearCancelHandler (t : SessionState) (h : Synced t) :
    Synced (clearCancelHandler t) := by
  unfold clearCancelHandler
  split
  · split
    · exact h
    · exact h
  · exact h

theorem synced_step (hash : String → String) (s : SessionState) (e : Event)
    (h : Synced s) (he : eventOk e = true) : Synced (step hash s e) := by
  obtain ⟨h1, h2, h3⟩ := h
  cases e with
  | login u p =>
    simp only [step]
    cases hlog : s.logged_in with
    | true =>
      rw [if_pos rfl]
      exact ⟨h1, h2, h3⟩
    | false =>
      rw [if_neg Bool.false_ne_true]
      cases ha : authenticate hash s.users u p with
      | success id =>
        refine ⟨?_, ?_, ?_⟩
        · intro hf
          exact absurd hf (fun hx => Bool.noConfusion hx)
        · intro _
          exact ⟨id.username, rfl⟩
        · intro df hdf
          exact Option.noConfusion ((h1 hlog).symm.trans hdf)
      | invalidCredentials => exact ⟨h1, h2, h3⟩
      | missingInput => exact ⟨h1, h2, h3⟩
  | logout =>
    simp only [step]
    cases hlog : s.logged_in with
    | true =>
      rw [if_pos rfl]
      refine ⟨fun _ => rfl, ?_, ?_⟩
      · intro hf
        exact absurd hf (fun hx => Bool.noConfusion hx)
      · intro df hdf
        exact Option.noConfusion hdf
    | false =>
      rw [if_neg Bool.false_ne_true]
      exact ⟨h1, h2, h3⟩
  | render =>
    simp only [step]
    cases hlog : s.logged_in with
    | true =>
      rw [if_pos rfl]
      exact synced_renderInit s ⟨h1, h2, h3⟩ hlog
    | false =>
      rw [if_neg Bool.false_ne_true]
      exact ⟨h1, h2, h3⟩
  | addJob r =>
    simp only [step]
    cases hlog : s.logged_in with
    | true =>
      rw [if_pos rfl]
      exact synced_addJobHandler r (renderInit s)
        (synced_renderInit s ⟨h1, h2, h3⟩ hlog)
        ((renderInit_fields s).1.trans hlog) (by simpa [eventOk] using he)
    | false =>
      rw [if_neg Bool.false_ne_true]
      exact ⟨h1, h2, h3⟩
  | refresh =>
    simp only [step]
    cases hlog : s.logged_in with
    | true =>
      rw [if_pos rfl]
      exact synced_refreshHandler (renderInit s)
        (synced_renderInit s ⟨h1, h2, h3⟩ hlog) ((renderInit_fields s).1.trans hlog)
    | false =>
      rw [if_neg Bool.false_ne_true]
      exact ⟨h1, h2, h3⟩
  | saveChanges rows =>
    simp only [step]
    cases hlog : s.logged_in with
    | true =>
      rw [if_pos rfl]
      refine synced_saveChangesHandler rows (renderInit s)
        (synced_renderInit s ⟨h1, h2, h3⟩ hlog)
        ((renderInit_fields s).1.trans hlog) ?_
      intro j hj
      simp only [eventOk, List.all_eq_true, Bool.and_eq_true] at he
      exact (he j hj).1
    | false =>
      rw [if_neg Bool.false_ne_true]
      exact ⟨h1, h2, h3⟩
  | clearRequest =>
    simp only [step]
    cases hlog : s.logged_in with
    | true =>
      rw [if_pos rfl]
      exact synced_clearRequestHandler (renderInit s)
        (synced_renderInit s ⟨h1, h2, h3⟩ hlog)
    | false =>
      rw [if_neg Bool.false_ne_true]
      exact ⟨h1, h2, h3⟩
  | clearConfirm =>
    simp only [step]
    cases hlog : s.logged_in with
    | true =>
      rw [if_pos rfl]
      exact synced_clearConfirmHandler (renderInit s)
        (synced_renderInit s ⟨h1, h2, h3⟩ hlog) ((renderInit_fields s).1.trans hlog)
    | false =>
      rw [if_neg Bool.false_ne_true]
      exact ⟨h1, h2, h3⟩
  | clearCancel =>
    simp only [step]
    cases hlog : s.logged_in with
    | true =>
      rw [if_pos rfl]
      exact synced_clearCancelHandler (renderInit s)
        (synced_renderInit s ⟨h1, h2, h3⟩ hlog)
    | false =>
      rw [if_neg Bool.false_ne_true]
      exact ⟨h1, h2, h3⟩

theorem synced_run (hash : String → String) (s : SessionState) (evs : List Event)
    (h : Synced s) (he : ∀ e ∈ evs, eventOk e = true) : Synced (run hash s evs) := by
  induction evs generalizing s with
  | nil => exact h
  | cons e es ih =>
    exact ih (step hash s e)
      (synced_step hash s e h (he e (List.mem_cons_self e es)))
      (fun x hx => he x (List.mem_cons_of_mem e hx))

theorem synced_initState (users : Users) (store : Store) :
    Synced (initState users store) :=
  ⟨fun _ => rfl, fun hf => Bool.noConfusion hf, fun _ hdf => Option.noConfusion hdf⟩

theorem applyMut_load (u : String) (df : List Job) (store : Store) (m : Mut)
    (hm : mutOk m = true) (hload : load_data store u = some df) :
    load_data (applyMut u (df, store) m).2 u = some (applyMut u (df, store) m).1 := by
  cases m with
  | add r =>
    simp only [applyMut]
    by_cases hg : r.company_name ≠ "" ∧ r.job_title ≠ ""
    · rw [if_pos hg]
      apply load_data_save_data
      intro j hj
      rcases List.mem_append.mp hj with hj | hj
      · exact load_data_valid store u df hload j hj
      · rw [List.mem_singleton.mp hj]
        simpa [mutOk] using hm
    · rw [if_neg hg]
      exact hload
  | applyEdits rows =>
    apply load_data_save_data
    intro j hj
    simp only [mutOk, List.all_eq_true] at hm
    exact hm j hj
  | clearAll =>
    apply load_data_save_data
    intro j hj
    exact absurd hj (List.not_mem_nil j)

theorem applyMuts_load (u : String) (ms : List Mut) :
    ∀ (df : List Job) (store : Store), (∀ m ∈ ms, mutOk m = true) →
      load_data store u = some df →
      load_data (applyMuts u (df, store) ms).2 u = some (applyMuts u (df, store) ms).1 := by
  induction ms with
  | nil =>
    intro df store _ h0
    exact h0
  | cons m rest ih =>
    intro df store hms h0
    have h1 := applyMut_load u df store m (hms m (List.mem_cons_self m rest)) h0
    show load_data (applyMuts u (applyMut u (df, store) m) rest).2 u
        = some (applyMuts u (applyMut u (df, store) m) rest).1
    cases hp : applyMut u (df, store) m with
    | mk df1 store1 =>
      rw [hp] at h1
      exact ih df1 store1 (fun m2 hm2 => hms m2 (List.mem_cons_of_mem m hm2)) h1

theorem renderInit_eq_self (s : SessionState) (u : String) (hu : s.username = some u)
    (hdf : s.jobs_df ≠ none) (hcur : s.current_user = some u) : renderInit s = s := by
  unfold renderInit
  split
  · rfl
  · rename_i u2 hu2
    rw [hu] at hu2
    obtain rfl : u = u2 := Option.some.inj hu2
    rw [if_neg (fun hor => hor.elim hdf (fun hne => hne hcur))]

theorem clearRequestHandler_eq (t : SessionState) (hok : renderedOk t = true) :
    clearRequestHandler t = { t with show_confirm := true } := by
  unfold clearRequestHandler
  rw [if_pos hok]

theorem clearConfirmHandler_eq (t : SessionState) (u : String) (hok : renderedOk t = true)
    (hu : t.username = some u) (hsc : t.show_confirm = true) :
    clearConfirmHandler t = { persistDf t u [] with show_confirm := false } := by
  unfold clearConfirmHandler
  rw [if_pos hok, if_pos hsc]
  split
  · rename_i u2 hu2
    rw [hu] at hu2
    obtain rfl : u = u2 := Option.some.inj hu2
    rfl
  · rename_i hu2
    exact absurd (hu.symm.trans hu2) (fun hx => Option.noConfusion hx)

theorem clearConfirmHandler_noop (t : SessionState) (hok : renderedOk t = true)
    (hsc : t.show_confirm = false) : clearConfirmHandler t = t := by
  unfold clearConfirmHandler
  rw [if_pos hok, if_neg (fun hx => Bool.false_ne_true (hsc ▸ hx))]

theorem clearCancelHandler_eq (t : SessionState) (hok : renderedOk t = true)
    (hsc : t.show_confirm = true) :
    clearCancelHandler t = { t with show_confirm := false } := by
  unfold clearCancelHandler
  rw [if_pos hok, if_pos hsc]

theorem renderMainView_stats (snapshot : List Job) (q f : String) (v : MainView)
    (h : renderMainView snapshot q f = some v) : v.stats = aggregate snapshot := by
  unfold renderMainView at h
  cases hf : filterRecords snapshot q f with
  | none =>
    rw [hf] at h
    exact Option.noConfusion h
  | some listed =>
    rw [hf, Option.map_some'] at h
    obtain rfl : (⟨listed, aggregate snapshot⟩ : MainView) = v := Option.some.inj h
    rfl

/-- Claim C1, counterexample. The claim states that authenticate
succeeds iff a record exists for u with matching digest and that every
other input fails with InvalidCredentials. With a matching credential
record stored under the empty username, authenticate on that username
neither succeeds nor returns InvalidCredentials: the handler checks
truthiness of the two fields first and reports the separate
missing-input message, before the credential store is consulted. -/
theorem C1_counterexample :
    users0 "" = some cred0 ∧ cred0.password = hash0 "pw" ∧
      authenticate hash0 users0 "" "pw" = .missingInput ∧
      authIsSuccess (authenticate hash0 users0 "" "pw") = false ∧
      AuthResult.missingInput ≠ AuthResult.invalidCredentials := by
  refine ⟨rfl, rfl, rfl, rfl, ?_⟩
  decide

/-- Claim C1, amended: for non-empty username and password,
authentication succeeds iff a credential record exists for the username
whose stored hash equals the digest of the password; on every other
such input it fails with InvalidCredentials; and the handler compares
digests only, so two passwords with equal digests are indistinguishable
to it. Inputs with an empty username or password are instead rejected
with the missing-input message before the store is consulted. -/
theorem C1_authenticate_amended (hash : String → String) (users : Users)
    (u p : String) (hu : u ≠ "") (hp : p ≠ "") :
    (authIsSuccess (authenticate hash users u p) = true ↔
      ∃ c, users u = some c ∧ c.password = hash p) ∧
    (authIsSuccess (authenticate hash users u p) = false →
      authenticate hash users u p = .invalidCredentials) ∧
    (∀ p2, p2 ≠ "" → hash p2 = hash p →
      authenticate hash users u p2 = authenticate hash users u p) := by
  refine ⟨?_, ?_, ?_⟩
  · unfold authenticate
    rw [if_pos ⟨hu, hp⟩]
    split
    · rename_i c hc
      split
      · rename_i hpw
        simp only [authIsSuccess]
        exact ⟨fun _ => ⟨c, hc, hpw⟩, fun _ => by trivial⟩
      · rename_i hpw
        simp only [authIsSuccess]
        constructor
        · intro hs
          exact Bool.noConfusion hs
        · rintro ⟨c2, hc2, hpw2⟩
          rw [hc] at hc2
          obtain rfl : c = c2 := Option.some.inj hc2
          exact absurd hpw2 hpw
    · rename_i hc
      simp only [authIsSuccess]
      constructor
      · intro hs
        exact Bool.noConfusion hs
      · rintro ⟨c2, hc2, _⟩
        rw [hc] at hc2
        exact Option.noConfusion hc2
  · unfold authenticate
    rw [if_pos ⟨hu, hp⟩]
    split
    · split
      · intro hs
        exact Bool.noConfusion hs
      · intro _
        rfl
    · intro _
      rfl
  · intro p2 hp2 heq
    unfold authenticate
    rw [if_pos ⟨hu, hp2⟩, if_pos ⟨hu, hp⟩, heq]

/-- Claim C1, witness: alice with the right password authenticates
successfully. -/
theorem C1_witness :
    authIsSuccess (authenticate hash0 users1 "alice" "pw") = true :=
  (C1_authenticate_amended hash0 users1 "alice" "pw"
    (by decide) (by decide)).1.mpr ⟨⟨hash0 "pw", some "Alice", "t0"⟩, rfl, rfl⟩

/-- Claim C10: on successful authentication the returned identity
carries the stored display_name, and falls back to the username itself
when the stored record has no display_name field, authentication still
succeeding. -/
theorem C10_display_name (hash : String → String) (users : Users) (u p : String)
    (c : Cred) (hu : u ≠ "") (hp : p ≠ "") (hc : users u = some c)
    (hpw : c.password = hash p) :
    authenticate hash users u p = .success ⟨u, c.display_name.getD u⟩ ∧
    (c.display_name = none → authenticate hash users u p = .success ⟨u, u⟩) := by
  have hmain : authenticate hash users u p = .success ⟨u, c.display_name.getD u⟩ := by
    unfold authenticate
    rw [if_pos ⟨hu, hp⟩]
    split
    · rename_i c2 hc2
      rw [hc] at hc2
      obtain rfl : c = c2 := Option.some.inj hc2
      rw [if_pos hpw]
    · rename_i hc2
      exact absurd (hc.symm.trans hc2) (fun hx => Option.noConfusion hx)
  refine ⟨hmain, fun hnone => ?_⟩
  rw [hmain, hnone]
  rfl

/-- Claim C10, witness: bob, whose stored record has no display_name
field, still authenticates and gets his username as display name. -/
theorem C10_witness :
    authenticate hash0 users2 "bob" "pw" = .success ⟨"bob", "bob"⟩ :=
  (C10_display_name hash0 users2 "bob" "pw" cred2
    (by decide) (by decide) rfl rfl).2 rfl

/-- Claim C5, counterexample. The claim states that registration fails
with DuplicateUsername when the username already exists. Registering
the existing username bob with the short password ab (confirmed
identically) fails with WeakPassword instead: the handler checks the
password length before consulting the credential store. -/
theorem C5_counterexample :
    (usersB "bob").isSome = true ∧
      (register hash0 "t1" usersB "bob" "Bobby" "ab" "ab").1 = .weakPassword ∧
      RegResult.weakPassword ≠ RegResult.duplicateUsername := by
  refine ⟨rfl, rfl, ?_⟩
  decide

/-- Claim C5, amended: the register handler checks its failure
conditions in a fixed order: incomplete input first, then password
confirmation mismatch, then weak password, then duplicate username; a
registration passing all four succeeds and stores the new record; and
every failed registration leaves the credential store, including any
existing record for that username, unchanged. -/
theorem C5_register_amended (hash : String → String) (now : String) (users : Users)
    (u d p confirm : String) :
    ((u = "" ∨ p = "" ∨ d = "") →
      register hash now users u d p confirm = (.incompleteInput, users)) ∧
    (u ≠ "" → p ≠ "" → d ≠ "" → p ≠ confirm →
      register hash now users u d p confirm = (.passwordMismatch, users)) ∧
    (u ≠ "" → p ≠ "" → d ≠ "" → p = confirm → p.length < 4 →
      register hash now users u d p confirm = (.weakPassword, users)) ∧
    (u ≠ "" → p ≠ "" → d ≠ "" → p = confirm → ¬p.length < 4 →
      (users u).isSome = true →
      register hash now users u d p confirm = (.duplicateUsername, users)) ∧
    (u ≠ "" → p ≠ "" → d ≠ "" → p = confirm → ¬p.length < 4 → users u = none →
      (register hash now users u d p confirm).1 = .ok ∧
        (register hash now users u d p confirm).2 u = some ⟨hash p, some d, now⟩) ∧
    ((register hash now users u d p confirm).1 ≠ .ok →
      (register hash now users u d p confirm).2 = users) := by
  refine ⟨?_, ?_, ?_, ?_, ?_, ?_⟩
  · intro hin
    unfold register
    rw [if_neg (by tauto)]
  · intro hu hp hd hpc
    unfold register
    rw [if_pos ⟨hu, hp, hd⟩, if_pos hpc]
  · intro hu hp hd hpc hlen
    unfold register
    rw [if_pos ⟨hu, hp, hd⟩, if_neg (fun hne => hne hpc), if_pos hlen]
  · intro hu hp hd hpc hlen hex
    unfold register
    rw [if_pos ⟨hu, hp, hd⟩, if_neg (fun hne => hne hpc), if_neg hlen]
    cases hc : users u with
    | some c => rfl
    | none => exact absurd (hc ▸ hex) (by decide)
  · intro hu hp hd hpc hlen hnone
    unfold register
    rw [if_pos ⟨hu, hp, hd⟩, if_neg (fun hne => hne hpc), if_neg hlen, hnone]
    exact ⟨rfl, by simp⟩
  · intro hne
    unfold register at hne ⊢
    by_cases h1x : u ≠ "" ∧ p ≠ "" ∧ d ≠ ""
    · rw [if_pos h1x] at hne ⊢
      by_cases h2x : p ≠ confirm
      · rw [if_pos h2x] at hne ⊢
      · rw [if_neg h2x] at hne ⊢
        by_cases h3x : p.length < 4
        · rw [if_pos h3x] at hne ⊢
        · rw [if_neg h3x] at hne ⊢
          cases hc : users u with
          | some c => rfl
          | none =>
            rw [hc] at hne
            exact absurd rfl hne
    · rw [if_neg h1x] at hne ⊢

/-- Claim C5, witness: registering with an empty username fails with
the incomplete-input error and leaves the store unchanged. -/
theorem C5_witness :
    register hash0 "t1" usersB "" "Bobby" "pass" "pass" = (.incompleteInput, usersB) :=
  (C5_register_amended hash0 "t1" usersB "" "Bobby" "pass" "pass").1 (Or.inl rfl)

/-- Claim C2: for every username and every finite sequence of mutations
(each of which persists the snapshot), loading in a fresh session
returns exactly the resulting ordered sequence, dates round-tripping
through their ISO serialization unchanged; and when no collection was
ever stored for the username, load returns the empty sequence rather
than an error. -/
theorem C2_roundtrip (u : String) (store : Store) (ms : List Mut) (df0 : List Job)
    (hms : ∀ m ∈ ms, mutOk m = true) (h0 : load_data store u = some df0) :
    load_data (applyMuts u (df0, store) ms).2 u
      = some (applyMuts u (df0, store) ms).1 ∧
    (store (get_user_data_file u) = none → load_data store u = some []) := by
  refine ⟨applyMuts_load u ms df0 store hms h0, ?_⟩
  intro hnone
  unfold load_data
  rw [hnone]

/-- Claim C2, witness: adding one record to an empty store and loading
afresh returns exactly that record. -/
theorem C2_witness :
    load_data (applyMuts "alice" ([], emptyStore) [Mut.add jobA]).2 "alice"
      = some (applyMuts "alice" ([], emptyStore) [Mut.add jobA]).1 :=
  (C2_roundtrip "alice" emptyStore [Mut.add jobA] [] (by decide) (by decide)).1

/-- Claim C6: the per-user record stores are independent. Any sequence
of saves performed for one username leaves the collection subsequently
loaded for any other username exactly as it was. -/
theorem C6_user_isolation (store : Store) (u1 u2 : String) (h : u1 ≠ u2)
    (saves : List (List Job)) :
    load_data (saves.foldl (fun st df => save_data st u1 df) store) u2
      = load_data store u2 := by
  induction saves generalizing store with
  | nil => rfl
  | cons df rest ih =>
    calc load_data ((df :: rest).foldl (fun st d => save_data st u1 d) store) u2
        = load_data (rest.foldl (fun st d => save_data st u1 d)
            (save_data store u1 df)) u2 := rfl
      _ = load_data (save_data store u1 df) u2 := ih (save_data store u1 df)
      _ = load_data store u2 := load_data_save_data_other store u1 u2 h df

/-- Claim C6, witness: saving a record for alice does not change what
bob loads. -/
theorem C6_witness :
    load_data (([[jobA]] : List (List Job)).foldl
        (fun st df => save_data st "alice" df) emptyStore) "bob"
      = load_data emptyStore "bob" :=
  C6_user_isolation emptyStore "alice" "bob" (by decide) [[jobA]]

/-- Claim C7, failing input evaluated on the code: in a rendered
session for alice, submitting Save Changes with a batch whose single
record carries the status On Hold, a value outside the closed
vocabulary, replaces the in-memory snapshot with that batch and
persists it, so the invalid status reaches the durable store. The
handler at lines 352 to 356 of app.py persists the edited batch
unconditionally; no rejection and no InvalidStatus outcome exist on
this path, contrary to the claim. -/
theorem C7_invalid_status_persisted :
    statusOk jobBad.status = false ∧
    (step hash0 s0 (.saveChanges [jobBad])).jobs_df = some [jobBad] ∧
    load_data (step hash0 s0 (.saveChanges [jobBad])).store "alice"
      = some [jobBad] := by
  refine ⟨rfl, ?_, ?_⟩ <;> decide

/-- Claim C3: the displayed counters are computed from the full
unfiltered snapshot, hence invariant under any search or status filter
that renders; and they count exactly as the specification says: total
is the number of records, interviews the records whose status textually
contains Interview, offers the records with status Offer Received,
pending the records with status Applied. -/
theorem C3_stats_unfiltered (snapshot : List Job) (q f q2 f2 : String)
    (v v2 : MainView) (h : renderMainView snapshot q f = some v)
    (h2 : renderMainView snapshot q2 f2 = some v2) :
    v.stats = aggregate snapshot ∧
    v2.stats = v.stats ∧
    (aggregate snapshot).total = snapshot.length ∧
    (aggregate snapshot).interviews
      = (snapshot.filter (fun r => containsSub r.status "Interview")).length ∧
    (aggregate snapshot).offers
      = (snapshot.filter (fun r => r.status == "Offer Received")).length ∧
    (aggregate snapshot).pending
      = (snapshot.filter (fun r => r.status == "Applied")).length := by
  refine ⟨renderMainView_stats snapshot q f v h,
    (renderMainView_stats snapshot q2 f2 v2 h2).trans
      (renderMainView_stats snapshot q f v h).symm, rfl, ?_, rfl, rfl⟩
  show (snapshot.filter
      (fun r => str_contains false r.status "Interview" == some true)).length
    = (snapshot.filter (fun r => containsSub r.status "Interview")).length
  congr 1
  apply List.filter_congr
  intro r _
  rw [str_contains_lit_cs r.status "Interview" (by decide)]
  cases containsSub r.status "Interview" <;> rfl

/-- Claim C3, witness: on a one-record snapshot the counters computed
with and without an active search filter agree. -/
theorem C3_witness :
    (MainView.mk [jobA] (aggregate [jobA])).stats = aggregate [jobA] :=
  (C3_stats_unfiltered [jobA] "" "All" "acme" "Applied"
    ⟨[jobA], aggregate [jobA]⟩ ⟨[jobA], aggregate [jobA]⟩
    (by decide) (by decide)).1

/-- Claim C4, counterexample. The claim states that a non-empty search
text retains exactly the records containing it as a case-insensitive
substring. Searching for the single dot retains the record for Acme,
although neither its company name nor its job title contains a dot:
pandas str.contains treats the search text as a regular expression, and
the dot matches any character. -/
theorem C4_counterexample :
    filterRecords [jobA] "." "All" = some [jobA] ∧
      containsSubCI jobA.company_name "." = false ∧
      containsSubCI jobA.job_title "." = false := by
  refine ⟨rfl, rfl, rfl⟩

/-- Claim C4, amended: when the search text contains no regular
expression metacharacters, the filter retains exactly the records whose
company name or job title contains it as a case-insensitive substring;
a specific status filter retains exactly the records with that exact
status; both predicates compose conjunctively, in one stable pass that
preserves input order; and the empty search with the All sentinel
returns the input unchanged. (For search text with regex
metacharacters the text is interpreted as a regular expression instead,
as the counterexample shows.) -/
theorem C4_filter_amended (rows : List Job) (q f : String) (hq : litPat q = true) :
    filterRecords rows q f
      = some (rows.filter (fun r =>
          (q == "" || containsSubCI r.company_name q
              || containsSubCI r.job_title q)
            && (f == "All" || r.status == f))) ∧
    filterRecords rows "" "All" = some rows := by
  constructor
  · unfold filterRecords
    by_cases hqe : q = ""
    · subst hqe
      rw [if_pos rfl, Option.map_some']
      by_cases hfe : f = "All"
      · subst hfe
        rw [if_pos rfl]
        simp
      · rw [if_neg hfe]
        have hf : (f == "All") = false := beq_eq_false_iff_ne.mpr hfe
        congr 1
        apply List.filter_congr
        intro r _
        simp [hf]
    · rw [if_neg hqe, patAtoms_of_lit _ hq, Option.map_some', Option.map_some']
      have hqb : (q == "") = false := beq_eq_false_iff_ne.mpr hqe
      have hsrch : ∀ t : String,
          searchFrom true (q.data.map RAtom.lit) t.data = containsSubCI t q := by
        intro t
        rw [searchFrom_lit, keyChar_true_fun]
        rfl
      by_cases hfe : f = "All"
      · subst hfe
        rw [if_pos rfl]
        congr 1
        apply List.filter_congr
        intro r _
        rw [hsrch r.company_name, hsrch r.job_title]
        simp [hqb]
      · rw [if_neg hfe]
        have hf : (f == "All") = false := beq_eq_false_iff_ne.mpr hfe
        rw [List.filter_filter]
        congr 1
        apply List.filter_congr
        intro r _
        rw [hsrch r.company_name, hsrch r.job_title]
        simp [hqb, hf, Bool.and_comm]
  · unfold filterRecords
    rw [if_pos rfl, Option.map_some', if_pos rfl]

/-- Claim C4, witness: a metacharacter-free search behaves as the
case-insensitive substring filter. -/
theorem C4_witness :
    filterRecords [jobA] "acme" "All"
      = some ([jobA].filter (fun r =>
          (("acme" == "") || containsSubCI r.company_name "acme"
              || containsSubCI r.job_title "acme")
            && (("All" == "All") || r.status == "All"))) :=
  (C4_filter_amended [jobA] "acme" "All" (by decide)).1

/-- Claim C8: clearing all records is a two-step operation. From a
rendered session with no pending confirmation: the Clear All request
changes neither the snapshot nor the stored collection, only raising
the confirmation flag; a confirmation arriving without a prior request
changes nothing; after request, confirming replaces the snapshot by the
empty sequence and persists it, so a subsequent load returns the empty
sequence; and after request, cancelling leaves snapshot and store
exactly as they were. -/
theorem C8_clear_two_step (hash : String → String) (s : SessionState) (u : String)
    (df : List Job) (hlog : s.logged_in = true) (hu : s.username = some u)
    (hdf : s.jobs_df = some df) (hcur : s.current_user = some u)
    (hsc : s.show_confirm = false) :
    (step hash s .clearRequest).jobs_df = s.jobs_df ∧
    (step hash s .clearRequest).store = s.store ∧
    (step hash s .clearRequest).show_confirm = true ∧
    step hash s .clearConfirm = s ∧
    (step hash (step hash s .clearRequest) .clearConfirm).jobs_df = some [] ∧
    load_data (step hash (step hash s .clearRequest) .clearConfirm).store u
      = some [] ∧
    (step hash (step hash s .clearRequest) .clearCancel).jobs_df = s.jobs_df ∧
    (step hash (step hash s .clearRequest) .clearCancel).store = s.store := by
  have hdfne : s.jobs_df ≠ none := by
    rw [hdf]
    exact fun hx => Option.noConfusion hx
  have hok : renderedOk s = true := by
    unfold renderedOk
    rw [hdf, hcur, hu]
    simp
  have hri : renderInit s = s := renderInit_eq_self s u hu hdfne hcur
  have hs1 : step hash s .clearRequest = { s with show_confirm := true } := by
    simp only [step]
    rw [if_pos hlog, hri, clearRequestHandler_eq s hok]
  have hok1 : renderedOk { s with show_confirm := true } = true := hok
  have hri1 : renderInit { s with show_confirm := true }
      = { s with show_confirm := true } :=
    renderInit_eq_self { s with show_confirm := true } u hu hdfne hcur
  have hconf : step hash { s with show_confirm := true } .clearConfirm
      = { persistDf { s with show_confirm := true } u [] with show_confirm := false } := by
    simp only [step]
    rw [if_pos hlog, hri1, clearConfirmHandler_eq _ u hok1 hu rfl]
  have hcanc : step hash { s with show_confirm := true } .clearCancel
      = { { s with show_confirm := true } with show_confirm := false } := by
    simp only [step]
    rw [if_pos hlog, hri1, clearCancelHandler_eq _ hok1 rfl]
  refine ⟨?_, ?_, ?_, ?_, ?_, ?_, ?_, ?_⟩
  · rw [hs1]
  · rw [hs1]
  · rw [hs1]
  · simp only [step]
    rw [if_pos hlog, hri, clearConfirmHandler_noop s hok hsc]
  · rw [hs1, hconf]
    rfl
  · rw [hs1, hconf]
    show load_data (save_data s.store u []) u = some []
    exact load_data_save_data s.store u [] (fun j hj => absurd hj (List.not_mem_nil j))
  · rw [hs1, hcanc]
  · rw [hs1, hcanc]

/-- Claim C8, witness: the two-step clear on a concrete rendered
session for alice. -/
theorem C8_witness :
    (step hash0 s0 .clearRequest).jobs_df = s0.jobs_df ∧
      load_data (step hash0 (step hash0 s0 .clearRequest) .clearConfirm).store
        "alice" = some [] :=
  ⟨(C8_clear_two_step hash0 s0 "alice" [jobA] rfl rfl rfl rfl rfl).1,
   (C8_clear_two_step hash0 s0 "alice" [jobA] rfl rfl rfl rfl rfl).2.2.2.2.2.1⟩

/-- Claim C9: in every session reachable from a fresh start by
well-formed interactions, whenever the session holds a snapshot it is
logged in as some username, current_user marks that same username, and
the snapshot is exactly what load_data returns for it, so a snapshot
belonging to a previous identity is never reused for a different
username and switching identities forces a reload. -/
theorem C9_session_isolation (hash : String → String) (users : Users)
    (store : Store) (evs : List Event)
    (he : ∀ e ∈ evs, eventOk e = true) :
    Synced (run hash (initState users store) evs) :=
  synced_run hash (initState users store) evs (synced_initState users store) he

/-- Claim C9, witness: alice logging in and rendering yields a synced
session. -/
theorem C9_witness :
    Synced (run hash0 (initState users1 emptyStore)
      [Event.login "alice" "pw", Event.render]) :=
  C9_session_isolation hash0 users1 emptyStore
    [Event.login "alice" "pw", Event.render] (by decide)
